import Mathlib

/-!
# Verification of the goreleaser publish pipeline and Gitea client

A shallow embedding, in Lean 4, of the publishing pipeline runner
(`internal/pipe/publish/publish.go`) and of the Gitea release-client adapter
(`internal/client/gitea.go`), together with proofs of the behavioural claims
made by the repository's specification.

Provider calls (the `code.gitea.io/sdk/gitea` SDK) are modelled by passing
their outcomes in explicitly, or, where a claim needs the remote side to be
closed over (release reconciliation), by a small explicit model of the remote
server state.
-/

namespace Goreleaser

/-! ## Shared HTTP / error model -/

/-- A provider HTTP response, as far as the client inspects it
(`gitea.Response` exposing `StatusCode`). In Go the response can be `nil`,
which the embedding renders as `Option Response`. -/
structure Response where
  statusCode : Nat
deriving Repr, DecidableEq

/-- `http.StatusNotFound`. -/
def httpStatusNotFound : Nat := 404

/-- The test `resp != nil && resp.StatusCode == http.StatusNotFound`
performed by `CloseMilestone` and (negated) by `CreateFile`. -/
def respIsNotFound (resp : Option Response) : Bool :=
  match resp with
  | some r => r.statusCode == httpStatusNotFound
  | none => false

/-- Go errors as the Gitea client produces them: either a plain error
(SDK / strconv error carried as its message) or the `RetriableError`
wrapper type from the client package, which wraps an underlying error. -/
inductive GoError
  | plain (msg : String)
  | RetriableError (err : GoError)
deriving Repr, DecidableEq

/-- Whether an error is the `RetriableError` wrapper (what a caller's
`errors.As(err, &RetriableError{})` test observes). -/
def isRetriableError : GoError → Bool
  | .RetriableError _ => true
  | .plain _ => false

/-! ## `newGitea`: client construction (`gitea.go` lines 46-75) -/

/-- A `gitea.ClientOption` as assembled by `newGitea`: the HTTP client
option is always present, the token option only conditionally. -/
inductive ClientOption
  | setHTTPClient
  | setToken (token : String)
deriving Repr, DecidableEq

/-- The option list built by `newGitea`:
`options := []gitea.ClientOption{gitea.SetHTTPClient(httpClient)}` and then
`if token != "giteatoken" { options = append(options, gitea.SetToken(token)) }`. -/
def newGiteaOptions (token : String) : List ClientOption :=
  let options : List ClientOption := [ClientOption.setHTTPClient]
  if token != "giteatoken" then options ++ [ClientOption.setToken token]
  else options

/-! ## `PublishRelease` (`gitea.go` lines 298-301) -/

/-- `PublishRelease` ignores its context and release ID and returns `nil`
(the body is only a TODO comment). `none` models the `nil` error. -/
def PublishRelease (_releaseID : String) : Option GoError := none

/-! ## `Upload` (`gitea.go` lines 318-337) -/

/-- One step of decimal accumulation used by `parseInt64Digits`. -/
def parseDigitStep (acc : Option Nat) (c : Char) : Option Nat :=
  match acc with
  | none => none
  | some n => if c.isDigit then some (10 * n + (c.toNat - 48)) else none

/-- Decimal digit-string parsing: `none` on the empty string or on any
non-digit character, otherwise the value of the digits. -/
def parseInt64Digits (s : List Char) : Option Nat :=
  match s with
  | [] => none
  | _ => s.foldl parseDigitStep (some 0)

/-- Largest `int64` value. -/
def int64Max : Int := 2 ^ 63 - 1

/-- Smallest `int64` value. -/
def int64Min : Int := -(2 ^ 63)

/-- `strconv.ParseInt(s, 10, 64)`: an optional leading `+` or `-`, then a
non-empty run of decimal digits; any syntax violation or a value outside the
64-bit signed range yields an error (`none`). -/
def parseInt64 (s : String) : Option Int :=
  let signedDigits : Bool × List Char :=
    match s.toList with
    | '+' :: rest => (false, rest)
    | '-' :: rest => (true, rest)
    | rest => (false, rest)
  match parseInt64Digits signedDigits.2 with
  | none => none
  | some n =>
    let v : Int := if signedDigits.1 then -(n : Int) else (n : Int)
    if int64Min ≤ v ∧ v ≤ int64Max then some v else none

/-- `Upload(ctx, releaseID, artifact, file)`: parses `releaseID` with
`strconv.ParseInt(releaseID, 10, 64)` and returns the parse error as-is on
failure; otherwise calls `CreateReleaseAttachment`, whose outcome is the
parameter `createAttachmentErr`, and wraps any failure of that call in
`RetriableError`. -/
def Upload (releaseID : String) (createAttachmentErr : Option String) :
    Option GoError :=
  match parseInt64 releaseID with
  | none =>
      some (.plain ("strconv.ParseInt: parsing " ++ releaseID ++ ": invalid syntax"))
  | some _ =>
      match createAttachmentErr with
      | some e => some (.RetriableError (.plain e))
      | none => none

/-! ## `CloseMilestone` (`gitea.go` lines 101-113) -/

/-- `gitea.StateType` as used here (`gitea.StateClosed` is the only value
the client writes). -/
inductive StateType
  | stateOpen
  | stateClosed
deriving Repr, DecidableEq

/-- `gitea.EditMilestoneOption` as built by `CloseMilestone`. -/
structure EditMilestoneOption where
  state : Option StateType
  title : String
deriving Repr, DecidableEq

/-- Errors surfaced by `CloseMilestone`: the distinguished
`ErrNoMilestoneFound` carrying the title, or the SDK error returned by
`EditMilestoneByName` passed through unchanged. -/
inductive ClientError
  | ErrNoMilestoneFound (title : String)
  | sdk (msg : String)
deriving Repr, DecidableEq

/-- The request `CloseMilestone` issues: `closedState := gitea.StateClosed`
and `opts := gitea.EditMilestoneOption{State: &closedState, Title: title}`. -/
def closeMilestoneRequest (title : String) : EditMilestoneOption :=
  { state := some StateType.stateClosed, title := title }

/-- `CloseMilestone(ctx, repo, title)`: issues `EditMilestoneByName` with
`closeMilestoneRequest title`; `resp` and `err` are that call's response and
error. If `resp != nil && resp.StatusCode == http.StatusNotFound` the result
is `ErrNoMilestoneFound{Title: title}`; otherwise the SDK error (possibly
`nil`) is returned. -/
def CloseMilestone (title : String) (resp : Option Response)
    (err : Option String) : Option ClientError :=
  if respIsNotFound resp then some (.ErrNoMilestoneFound title)
  else err.map ClientError.sdk

/-! ## `Changelog` (`gitea.go` lines 78-98) -/

/-- `gitea.User` fields read by `Changelog`. -/
structure CommitUser where
  fullName : String
  email : String
  userName : String
deriving Repr, DecidableEq

/-- `gitea.RepoCommit` fields read by `Changelog`. -/
structure RepoCommit where
  message : String
deriving Repr, DecidableEq

/-- `gitea.Commit` as consumed by `Changelog`: SHA, the inner commit with
its full message, and an optional author (`commit.Author` may be `nil`). -/
structure Commit where
  sha : String
  repoCommit : RepoCommit
  author : Option CommitUser
deriving Repr, DecidableEq

/-- `client.ChangelogItem`. Author fields keep Go's zero value `""` when
not set. -/
structure ChangelogItem where
  sha : String
  message : String
  authorName : String
  authorEmail : String
  authorUsername : String
deriving Repr, DecidableEq

/-- `strings.Split(s, "\n")`: splits a character list at every newline,
never returning an empty list. -/
def splitOnNewline : List Char → List (List Char)
  | [] => [[]]
  | ch :: rest =>
    match splitOnNewline rest with
    | [] => [[]]
    | line :: lines =>
      if ch = '\n' then [] :: line :: lines
      else (ch :: line) :: lines

/-- `strings.Split(s, "\n")[0]`: the first line of a commit message. -/
def firstLine (s : String) : String :=
  String.mk ((splitOnNewline s.toList).headD [])

/-- Loop body of `Changelog`: builds one `ChangelogItem` from a commit,
setting the author fields only when `commit.Author != nil`. -/
def changelogItemOfCommit (commit : Commit) : ChangelogItem :=
  let item : ChangelogItem :=
    { sha := commit.sha
      message := firstLine commit.repoCommit.message
      authorName := ""
      authorEmail := ""
      authorUsername := "" }
  match commit.author with
  | some author =>
      { item with
        authorName := author.fullName
        authorEmail := author.email
        authorUsername := author.userName }
  | none => item

/-- `Changelog(ctx, repo, prev, current)`: on a `CompareCommits` error the
error is returned; otherwise one item per returned commit, appended in the
provider's order. -/
def Changelog (compareResult : Except String (List Commit)) :
    Except String (List ChangelogItem) :=
  match compareResult with
  | .error e => .error e
  | .ok result => .ok (result.map changelogItemOfCommit)

/-! ## `CreateFile` (`gitea.go` lines 130-196) -/

/-- `config.CommitAuthor` fields read by `CreateFile`. -/
structure CommitAuthor where
  name : String
  email : String
deriving Repr, DecidableEq

/-- `client.Repo`: owner, name, optional branch override (`""` = unset). -/
structure Repo where
  owner : String
  name : String
  branch : String
deriving Repr, DecidableEq

/-- `gitea.Identity`. -/
structure Identity where
  name : String
  email : String
deriving Repr, DecidableEq

/-- `gitea.FileOptions` as built by `CreateFile`. -/
structure FileOptions where
  message : String
  branchName : String
  author : Identity
  committer : Identity
deriving Repr, DecidableEq

/-- The base64 standard alphabet. -/
def base64Alphabet : List Char :=
  "ABCDEFGHIJKLMNOPQRSTUVWXYZabcdefghijklmnopqrstuvwxyz0123456789+/".toList

/-- The base64 character for a 6-bit value. -/
def base64Char (n : Nat) : Char := base64Alphabet.getD n 'A'

/-- Standard base64 of a byte list, three input bytes per four output
characters, `=`-padded (`base64.StdEncoding.EncodeToString`). -/
def base64EncodeGroups : List Nat → List Char
  | [] => []
  | [b0] =>
      [base64Char (b0 / 4), base64Char (b0 % 4 * 16), '=', '=']
  | [b0, b1] =>
      [base64Char (b0 / 4), base64Char (b0 % 4 * 16 + b1 / 16),
       base64Char (b1 % 16 * 4), '=']
  | b0 :: b1 :: b2 :: rest =>
      base64Char (b0 / 4) :: base64Char (b0 % 4 * 16 + b1 / 16) ::
        base64Char (b1 % 16 * 4 + b2 / 64) :: base64Char (b2 % 64) ::
        base64EncodeGroups rest

/-- `base64.StdEncoding.EncodeToString(content)`. -/
def base64EncodeToString (bytes : List Nat) : String :=
  String.mk (base64EncodeGroups bytes)

/-- The result of `GetContents`: on success the current file (the client
reads only its `SHA`), on failure the optional response and the error. -/
inductive ContentsResult
  | ok (sha : String)
  | err (resp : Option Response) (msg : String)
deriving Repr, DecidableEq

/-- Outcomes of the provider calls `CreateFile` may make, in the order the
code makes them. -/
structure CreateFileEnv where
  /-- `GetRepo` as seen through `getDefaultBranch`: the repository's
  default branch, or the lookup error. -/
  getRepoResult : Except String String
  /-- `GetContents(owner, name, branch, path)`. -/
  getContentsResult : ContentsResult
  /-- Error of the SDK `CreateFile` call, when made. -/
  createFileErr : Option String
  /-- Error of the SDK `UpdateFile` call, when made. -/
  updateFileErr : Option String
deriving Repr

/-- A write call issued to the provider by `CreateFile`: either
`CreateFile(owner, name, path, CreateFileOptions{fileOptions, content})` or
`UpdateFile(owner, name, path, UpdateFileOptions{fileOptions, SHA, content})`. -/
inductive FileCall
  | createCall (path : String) (opts : FileOptions) (content : String)
  | updateCall (path : String) (opts : FileOptions) (sha : String) (content : String)
deriving Repr, DecidableEq

/-- What a `CreateFile` run did: the branch it resolved, whether it logged
the default-branch warning, the provider write calls it issued, and the
error it returned (`none` = success). -/
structure CreateFileTrace where
  branch : String
  warnedDefaultBranch : Bool
  calls : List FileCall
  result : Option String
deriving Repr, DecidableEq

/-- Branch resolution at the top of `CreateFile`: the explicit override if
non-empty, else `getDefaultBranch`; on a lookup error the code logs
`"error checking for default branch, using master"` and falls through with
`branch` still holding its zero value `""` (no assignment happens). The
Bool records that the warning was logged. -/
def resolveBranch (repo : Repo) (getRepoResult : Except String String) :
    String × Bool :=
  if repo.branch != "" then (repo.branch, false)
  else
    match getRepoResult with
    | .ok defaultBranch => (defaultBranch, false)
    | .error _ => ("", true)

/-- `CreateFile(ctx, commitAuthor, repo, content, path, message)`:
resolves the branch, builds `fileOptions`, fetches the current contents;
on a fetch error that is not a 404 the error is returned with no write; on
a 404 a create call is issued; otherwise an update call referencing the
fetched `SHA` is issued. -/
def CreateFile (commitAuthor : CommitAuthor) (repo : Repo)
    (content : List Nat) (path message : String) (env : CreateFileEnv) :
    CreateFileTrace :=
  let resolved := resolveBranch repo env.getRepoResult
  let branch := resolved.1
  let fileOptions : FileOptions :=
    { message := message
      branchName := branch
      author := { name := commitAuthor.name, email := commitAuthor.email }
      committer := { name := commitAuthor.name, email := commitAuthor.email } }
  match env.getContentsResult with
  | .err resp msg =>
      -- if resp == nil || resp.StatusCode != http.StatusNotFound: return err
      if respIsNotFound resp then
        { branch := branch
          warnedDefaultBranch := resolved.2
          calls := [FileCall.createCall path fileOptions (base64EncodeToString content)]
          result := env.createFileErr }
      else
        { branch := branch
          warnedDefaultBranch := resolved.2
          calls := []
          result := some msg }
  | .ok sha =>
      { branch := branch
        warnedDefaultBranch := resolved.2
        calls := [FileCall.updateCall path fileOptions sha (base64EncodeToString content)]
        result := env.updateFileErr }

/-! ## Publish pipeline runner (`internal/pipe/publish/publish.go`) -/

/-- One publisher in the pipeline, with the behaviour relevant to the
runner made explicit: its name (`String()`), the value of its skip
predicate for this run, the error its `Publish` returns through the
logging/error-handling middleware (`none` = success), and
`some b` exactly when it implements the `Continuable` interface with
`ContinueOnError()` returning `b`. -/
structure PubStage where
  name : String
  skipped : Bool
  runError : Option String
  continueOnError : Option Bool
deriving Repr, DecidableEq

/-- Modelled from the spec: the `skip`/`logging`/`errhandler` middleware
composition `skip.Maybe(publisher, logging.PadLog(name,
errhandler.Handle(publisher.Publish)))`, whose sources are outside this
tree. Per the spec, when the skip predicate is true the stage is logged and
omitted entirely (no error recorded); otherwise the stage runs and its
error, if any, surfaces to the runner. -/
def stageOutcome (st : PubStage) : Option String :=
  if st.skipped then none else st.runError

/-- Modelled from the spec: `errhandler.Memo` (source outside this tree).
`Memorize` appends to an ordered collection; `Error()` is `nil` when the
memo is empty and otherwise a single combined error joining all memorized
failures in the order they were recorded. -/
def memoError (memo : List String) : Option String :=
  if memo.isEmpty then none else some (String.intercalate "\n" memo)

/-- The loop of `Pipe.Run`, with `memo` the accumulated error memo.
Returns the loop's outcome — `Except.error` for the fatal early return,
`Except.ok` with the final memo otherwise — paired with the names of the
stages whose `Publish` was actually invoked, in invocation order. -/
def runPipeline (failFast : Bool) (memo : List String) :
    List PubStage → Except String (List String) × List String
  | [] => (.ok memo, [])
  | st :: rest =>
    if st.skipped then
      runPipeline failFast memo rest
    else
      match st.runError with
      | none =>
        let p := runPipeline failFast memo rest
        (p.1, st.name :: p.2)
      | some e =>
        -- if ig, ok := publisher.(Continuable); ok && ig.ContinueOnError() && !ctx.FailFast
        if st.continueOnError = some true ∧ failFast = false then
          let p := runPipeline failFast (memo ++ [st.name ++ ": " ++ e]) rest
          (p.1, st.name :: p.2)
        else
          (.error (st.name ++ ": failed to publish artifacts: " ++ e), [st.name])

/-- `Pipe.Run(ctx)`: runs the loop starting from an empty memo and ends
with `return memo.Error()`; a fatal stage error is returned directly. -/
def PipeRun (failFast : Bool) (stages : List PubStage) : Option String :=
  match (runPipeline failFast [] stages).1 with
  | .error e => some e
  | .ok memo => memoError memo

/-! ## Release reconciliation (`gitea.go` lines 198-296)

`CreateRelease` talks to the provider through `ListReleases`,
`CreateRelease` and `EditRelease`. To close the loop for the idempotence
claim, the provider is modelled as an explicit server state: a release
list plus a fresh-identifier counter; creation appends a release under a
fresh identifier, editing rewrites the release with the given identifier
in place. -/

/-- `gitea.Release`, restricted to the fields this client reads or
writes. -/
structure Release where
  id : Nat
  tagName : String
  target : String
  title : String
  note : String
  isDraft : Bool
  isPrerelease : Bool
deriving Repr, DecidableEq

/-- `gitea.CreateReleaseOption` as built by `createRelease`. -/
structure CreateReleaseOption where
  tagName : String
  target : String
  title : String
  note : String
  isDraft : Bool
  isPrerelease : Bool
deriving Repr, DecidableEq

/-- `gitea.EditReleaseOption` as built by `updateRelease` (the same fields,
all set). -/
structure EditReleaseOption where
  tagName : String
  target : String
  title : String
  note : String
  isDraft : Bool
  isPrerelease : Bool
deriving Repr, DecidableEq

/-- The modelled Gitea server: its releases and the next fresh release
identifier. -/
structure GiteaServer where
  releases : List Release
  nextID : Nat
deriving Repr, DecidableEq

/-- Server `ListReleases`: all releases (the client passes empty list
options; the adapter assumes the listing complete). -/
def listReleases (s : GiteaServer) : List Release := s.releases

/-- Server `CreateRelease`: appends a release with a fresh identifier and
returns it. -/
def serverCreateRelease (s : GiteaServer) (opts : CreateReleaseOption) :
    GiteaServer × Release :=
  let r : Release :=
    { id := s.nextID
      tagName := opts.tagName
      target := opts.target
      title := opts.title
      note := opts.note
      isDraft := opts.isDraft
      isPrerelease := opts.isPrerelease }
  ({ releases := s.releases ++ [r], nextID := s.nextID + 1 }, r)

/-- Server `EditRelease`: rewrites the release with identifier `id` in
place and returns the edited release; `none` when no such release exists. -/
def serverEditRelease (s : GiteaServer) (id : Nat) (opts : EditReleaseOption) :
    Option (GiteaServer × Release) :=
  match s.releases.find? (fun r => r.id == id) with
  | none => none
  | some old =>
    let updated : Release :=
      { old with
        tagName := opts.tagName
        target := opts.target
        title := opts.title
        note := opts.note
        isDraft := opts.isDraft
        isPrerelease := opts.isPrerelease }
    some
      ({ s with
         releases := s.releases.map (fun r => if r.id == id then updated else r) },
       updated)

/-- Per-run release inputs drawn from the context: repository coordinates,
`ctx.Git.CurrentTag`, `ctx.Git.Commit`, `releaseConfig.Draft` and
`ctx.PreRelease`. -/
structure ReleaseCtx where
  owner : String
  repoName : String
  currentTag : String
  commit : String
  draft : Bool
  prerelease : Bool
deriving Repr, DecidableEq

/-- `getExistingRelease(owner, repoName, tagName)`: lists the releases and
linearly scans for the first whose `TagName` equals `tagName`; `nil, nil`
when none matches. -/
def getExistingRelease (s : GiteaServer) (tagName : String) : Option Release :=
  (listReleases s).find? (fun release => release.tagName == tagName)

/-- `createRelease(ctx, title, body)`: a server create with the context's
tag, target commit, draft and prerelease flags. -/
def createRelease (s : GiteaServer) (ctx : ReleaseCtx) (title body : String) :
    GiteaServer × Release :=
  serverCreateRelease s
    { tagName := ctx.currentTag
      target := ctx.commit
      title := title
      note := body
      isDraft := ctx.draft
      isPrerelease := ctx.prerelease }

/-- `updateRelease(ctx, title, body, id)`: a server edit of release `id`
with the context's tag, target commit, draft and prerelease flags. -/
def updateRelease (s : GiteaServer) (ctx : ReleaseCtx) (title body : String)
    (id : Nat) : Option (GiteaServer × Release) :=
  serverEditRelease s id
    { tagName := ctx.currentTag
      target := ctx.commit
      title := title
      note := body
      isDraft := ctx.draft
      isPrerelease := ctx.prerelease }

/-- `CreateRelease(ctx, body)`: resolves the title, looks for an existing
release by tag; if found, merges release notes and updates it in place; if
not, creates a new release; either way returns the release identifier
formatted in base 10 (`strconv.FormatInt(release.ID, 10)`).

`merge` stands for `getReleaseNotes(release.Note, body,
ctx.Config.Release.ReleaseNotesMode)`, the release-notes merge policy with
the run's mode already applied; its source is outside this tree and the
claims proved here hold for every merge function. `none` models the error
return when the server edit fails (identifier vanished between list and
edit). -/
def CreateRelease (s : GiteaServer) (ctx : ReleaseCtx)
    (merge : String → String → String) (title body : String) :
    Option (GiteaServer × String) :=
  match getExistingRelease s ctx.currentTag with
  | some release =>
    let body := merge release.note body
    match updateRelease s ctx title body release.id with
    | none => none
    | some (s, release) => some (s, toString release.id)
  | none =>
    let p := createRelease s ctx title body
    some (p.1, toString p.2.id)

/-! ## Theorems -/

/-- C9: `PublishRelease` returns nil (success) for every release identifier,
including unparseable or nonexistent ones: the Gitea implementation is a
pure no-op that performs no provider call and can never fail. -/
theorem publishRelease_noop (releaseID : String) :
    PublishRelease releaseID = none := rfl

/-- C10: the Gitea client constructor treats the literal token string
"giteatoken" specially: for that exact input it builds the option list
without any authentication token, while for every other token string the
token is attached as the client's credential. -/
theorem newGitea_token_special_cased (token : String) :
    ((token == "giteatoken") = true →
      newGiteaOptions token = [ClientOption.setHTTPClient]) ∧
    ((token == "giteatoken") = false →
      newGiteaOptions token =
        [ClientOption.setHTTPClient, ClientOption.setToken token]) := by
  constructor
  · intro h
    simp only [newGiteaOptions, bne, h]
    rfl
  · intro h
    simp only [newGiteaOptions, bne, h]
    rfl

/-- Witness for C10 at the special token and at an ordinary token. -/
theorem newGitea_token_special_cased_witness :
    newGiteaOptions "giteatoken" = [ClientOption.setHTTPClient] ∧
    newGiteaOptions "tok" =
      [ClientOption.setHTTPClient, ClientOption.setToken "tok"] :=
  ⟨(newGitea_token_special_cased "giteatoken").1 (by decide),
   (newGitea_token_special_cased "tok").2 (by decide)⟩

/-- C7: `CloseMilestone` returns the distinguished `ErrNoMilestoneFound`
carrying the title exactly when the provider response reports HTTP 404;
otherwise it returns whatever error the provider edit call produced (nil on
success), and the request it issues sets the milestone state to closed. -/
theorem closeMilestone_not_found_distinguished (title t : String)
    (resp : Option Response) (err : Option String) :
    (closeMilestoneRequest title).state = some StateType.stateClosed ∧
    (respIsNotFound resp = true →
      CloseMilestone title resp err = some (ClientError.ErrNoMilestoneFound title)) ∧
    (respIsNotFound resp = false →
      CloseMilestone title resp err = err.map ClientError.sdk) ∧
    (CloseMilestone title resp err = some (ClientError.ErrNoMilestoneFound t) →
      t = title ∧ respIsNotFound resp = true) := by
  refine ⟨rfl, ?_, ?_, ?_⟩
  · intro h
    simp [CloseMilestone, h]
  · intro h
    simp [CloseMilestone, h]
  · intro h
    by_cases hnf : respIsNotFound resp
    · simp [CloseMilestone, hnf] at h
      exact ⟨h.symm, hnf⟩
    · simp only [CloseMilestone, hnf, if_neg Bool.false_ne_true] at h
      cases err with
      | none => simp at h
      | some m => simp [Option.map] at h

/-- Witness for C7: a 404 response yields the distinguished condition, a
non-404 run passes the provider error through, the request closes the
milestone. -/
theorem closeMilestone_not_found_distinguished_witness :
    (closeMilestoneRequest "v1.0.0").state = some StateType.stateClosed ∧
    CloseMilestone "v1.0.0" (some { statusCode := 404 }) (some "not found") =
      some (ClientError.ErrNoMilestoneFound "v1.0.0") ∧
    CloseMilestone "v1.0.0" (some { statusCode := 500 }) (some "boom") =
      some (ClientError.sdk "boom") ∧
    ("v1.0.0" = "v1.0.0" ∧
      respIsNotFound (some { statusCode := 404 }) = true) :=
  ⟨(closeMilestone_not_found_distinguished "v1.0.0" "x"
      (some { statusCode := 404 }) (some "not found")).1,
   (closeMilestone_not_found_distinguished "v1.0.0" "x"
      (some { statusCode := 404 }) (some "not found")).2.1 (by decide),
   (closeMilestone_not_found_distinguished "v1.0.0" "x"
      (some { statusCode := 500 }) (some "boom")).2.2.1 (by decide),
   (closeMilestone_not_found_distinguished "v1.0.0" "v1.0.0"
      (some { statusCode := 404 }) (some "not found")).2.2.2 (by decide)⟩

/-- `splitOnNewline` never returns the empty list. -/
theorem splitOnNewline_ne_nil (l : List Char) : splitOnNewline l ≠ [] := by
  cases l with
  | nil => simp [splitOnNewline]
  | cons ch rest =>
    simp only [splitOnNewline]
    cases h : splitOnNewline rest with
    | nil => simp
    | cons line lines =>
      by_cases hch : ch = '\n' <;> simp [hch]

/-- The first component of `splitOnNewline` is the text before the first
newline. -/
theorem splitOnNewline_headD (l : List Char) :
    (splitOnNewline l).headD [] = l.takeWhile (fun ch => ch != '\n') := by
  induction l with
  | nil => rfl
  | cons ch rest ih =>
    simp only [splitOnNewline]
    cases h : splitOnNewline rest with
    | nil => exact absurd h (splitOnNewline_ne_nil rest)
    | cons line lines =>
      by_cases hch : ch = '\n'
      · subst hch
        simp [List.takeWhile_cons]
      · rw [h] at ih
        simp only [List.headD] at ih
        simp [List.takeWhile_cons, hch, ih]

/-- `firstLine` is the text before the first newline. -/
theorem firstLine_takeWhile (s : String) :
    firstLine s = String.mk (s.toList.takeWhile (fun ch => ch != '\n')) := by
  unfold firstLine
  rw [splitOnNewline_headD]

/-- C8: a successful `Changelog` has one entry per commit reported by the
compare-commits endpoint, in exactly the provider's order (the result is a
plain `map`, never sorted or reversed); each entry's message is the text
before the first newline of the commit message, and the author fields are
filled in exactly when the provider supplied an author. -/
theorem changelog_order_and_content (commits : List Commit) (commit : Commit)
    (author : CommitUser) :
    Changelog (Except.ok commits) = Except.ok (commits.map changelogItemOfCommit) ∧
    (commits.map changelogItemOfCommit).length = commits.length ∧
    (changelogItemOfCommit commit).sha = commit.sha ∧
    (changelogItemOfCommit commit).message =
      String.mk (commit.repoCommit.message.toList.takeWhile (fun ch => ch != '\n')) ∧
    (commit.author = none →
      (changelogItemOfCommit commit).authorName = "" ∧
      (changelogItemOfCommit commit).authorEmail = "" ∧
      (changelogItemOfCommit commit).authorUsername = "") ∧
    (commit.author = some author →
      (changelogItemOfCommit commit).authorName = author.fullName ∧
      (changelogItemOfCommit commit).authorEmail = author.email ∧
      (changelogItemOfCommit commit).authorUsername = author.userName) := by
  refine ⟨rfl, List.length_map _ _, ?_, ?_, ?_, ?_⟩
  · cases h : commit.author <;> simp [changelogItemOfCommit, h]
  · cases h : commit.author <;>
      simp [changelogItemOfCommit, h, firstLine_takeWhile]
  · intro h
    simp [changelogItemOfCommit, h]
  · intro h
    simp [changelogItemOfCommit, h]

/-- Witness for C8 on a two-commit comparison, one commit with an author
and a multi-line message, one without. -/
theorem changelog_order_and_content_witness :
    Changelog (Except.ok
        [{ sha := "abc", repoCommit := { message := "feat: x\n\nbody" },
           author := some { fullName := "Ann", email := "a@x", userName := "ann" } },
         { sha := "def", repoCommit := { message := "fix: y" }, author := none }]) =
      Except.ok
        [{ sha := "abc", message := "feat: x", authorName := "Ann",
           authorEmail := "a@x", authorUsername := "ann" },
         { sha := "def", message := "fix: y", authorName := "",
           authorEmail := "", authorUsername := "" }] ∧
    (changelogItemOfCommit
        { sha := "def", repoCommit := { message := "fix: y" }, author := none }).authorName
      = "" ∧
    (changelogItemOfCommit
        { sha := "abc", repoCommit := { message := "feat: x\n\nbody" },
          author := some { fullName := "Ann", email := "a@x", userName := "ann" } }).authorName
      = "Ann" := by
  refine ⟨rfl, ?_, ?_⟩
  · exact ((changelog_order_and_content []
      { sha := "def", repoCommit := { message := "fix: y" }, author := none }
      { fullName := "Ann", email := "a@x", userName := "ann" }).2.2.2.2.1 rfl).1
  · exact ((changelog_order_and_content []
      { sha := "abc", repoCommit := { message := "feat: x\n\nbody" },
        author := some { fullName := "Ann", email := "a@x", userName := "ann" } }
      { fullName := "Ann", email := "a@x", userName := "ann" }).2.2.2.2.2 rfl).1

/-- C6 counterexample: `Upload` called with a release identifier that does
not parse as a 64-bit integer fails, and the error it returns is the plain
`strconv.ParseInt` error, not wrapped in `RetriableError` — so not every
failing `Upload` call returns a retriable-wrapped error. -/
theorem upload_unwrapped_parse_error :
    Upload "not-a-number" none =
      some (GoError.plain "strconv.ParseInt: parsing not-a-number: invalid syntax") ∧
    isRetriableError
      (GoError.plain "strconv.ParseInt: parsing not-a-number: invalid syntax") = false :=
  ⟨rfl, rfl⟩

/-- C6 amended: when the release identifier parses as a 64-bit integer,
every failure of the `CreateReleaseAttachment` call is returned wrapped in
`RetriableError` and success returns nil; when the identifier does not
parse, `Upload` returns the parse error unwrapped (not retriable). -/
theorem upload_retriable_wrapping (releaseID : String) (v : Int)
    (attachErr : Option String) :
    (parseInt64 releaseID = some v →
      Upload releaseID attachErr =
        attachErr.map (fun e => GoError.RetriableError (GoError.plain e))) ∧
    (parseInt64 releaseID = none →
      Upload releaseID attachErr =
        some (GoError.plain
          ("strconv.ParseInt: parsing " ++ releaseID ++ ": invalid syntax")) ∧
      isRetriableError
        (GoError.plain
          ("strconv.ParseInt: parsing " ++ releaseID ++ ": invalid syntax")) = false) := by
  constructor
  · intro h
    cases attachErr <;> simp [Upload, h]
  · intro h
    refine ⟨?_, rfl⟩
    simp [Upload, h]

/-- Witness for C6's amended theorem: a parseable identifier with a failing
attachment call yields a retriable-wrapped error; an unparseable one yields
the unwrapped parse error. -/
theorem upload_retriable_wrapping_witness :
    Upload "42" (some "connection reset") =
      some (GoError.RetriableError (GoError.plain "connection reset")) ∧
    (Upload "nope" (some "connection reset") =
      some (GoError.plain "strconv.ParseInt: parsing nope: invalid syntax") ∧
     isRetriableError
       (GoError.plain "strconv.ParseInt: parsing nope: invalid syntax") = false) :=
  ⟨(upload_retriable_wrapping "42" 42 (some "connection reset")).1 (by decide),
   (upload_retriable_wrapping "nope" 0 (some "connection reset")).2 (by decide)⟩

/-- C4: `CreateFile` first fetches the current contents, then branches
three ways: a not-found lookup failure issues a create call; any other
lookup failure is propagated with no write call issued; a successful lookup
issues an update call referencing the fetched blob SHA — never a second
create. -/
theorem createFile_create_vs_update (commitAuthor : CommitAuthor) (repo : Repo)
    (content : List Nat) (path message : String) (env : CreateFileEnv)
    (resp : Option Response) (msg sha : String) :
    (env.getContentsResult = ContentsResult.err resp msg →
      respIsNotFound resp = false →
      (CreateFile commitAuthor repo content path message env).calls = [] ∧
      (CreateFile commitAuthor repo content path message env).result = some msg) ∧
    (env.getContentsResult = ContentsResult.err resp msg →
      respIsNotFound resp = true →
      ∃ opts,
        (CreateFile commitAuthor repo content path message env).calls =
          [FileCall.createCall path opts (base64EncodeToString content)] ∧
        (CreateFile commitAuthor repo content path message env).result =
          env.createFileErr) ∧
    (env.getContentsResult = ContentsResult.ok sha →
      ∃ opts,
        (CreateFile commitAuthor repo content path message env).calls =
          [FileCall.updateCall path opts sha (base64EncodeToString content)] ∧
        (CreateFile commitAuthor repo content path message env).result =
          env.updateFileErr) := by
  refine ⟨?_, ?_, ?_⟩
  · intro h hnf
    simp [CreateFile, h, hnf]
  · intro h hnf
    exact ⟨{ message := message
             branchName := (resolveBranch repo env.getRepoResult).1
             author := { name := commitAuthor.name, email := commitAuthor.email }
             committer := { name := commitAuthor.name, email := commitAuthor.email } },
           by simp [CreateFile, h, hnf], by simp [CreateFile, h, hnf]⟩
  · intro h
    exact ⟨{ message := message
             branchName := (resolveBranch repo env.getRepoResult).1
             author := { name := commitAuthor.name, email := commitAuthor.email }
             committer := { name := commitAuthor.name, email := commitAuthor.email } },
           by simp [CreateFile, h], by simp [CreateFile, h]⟩

/-- Witness for C4: the three lookup outcomes — non-404 error, 404, and
success — at concrete inputs. -/
theorem createFile_create_vs_update_witness :
    ((CreateFile { name := "n", email := "e" }
        { owner := "o", name := "r", branch := "main" } [] "p" "m"
        { getRepoResult := Except.ok "main",
          getContentsResult := ContentsResult.err none "tcp timeout",
          createFileErr := none, updateFileErr := none }).calls = [] ∧
     (CreateFile { name := "n", email := "e" }
        { owner := "o", name := "r", branch := "main" } [] "p" "m"
        { getRepoResult := Except.ok "main",
          getContentsResult := ContentsResult.err none "tcp timeout",
          createFileErr := none, updateFileErr := none }).result = some "tcp timeout") ∧
    (∃ opts,
      (CreateFile { name := "n", email := "e" }
        { owner := "o", name := "r", branch := "main" } [] "p" "m"
        { getRepoResult := Except.ok "main",
          getContentsResult := ContentsResult.err (some { statusCode := 404 }) "not found",
          createFileErr := none, updateFileErr := none }).calls =
        [FileCall.createCall "p" opts (base64EncodeToString [])] ∧
      (CreateFile { name := "n", email := "e" }
        { owner := "o", name := "r", branch := "main" } [] "p" "m"
        { getRepoResult := Except.ok "main",
          getContentsResult := ContentsResult.err (some { statusCode := 404 }) "not found",
          createFileErr := none, updateFileErr := none }).result = none) ∧
    (∃ opts,
      (CreateFile { name := "n", email := "e" }
        { owner := "o", name := "r", branch := "main" } [] "p" "m"
        { getRepoResult := Except.ok "main",
          getContentsResult := ContentsResult.ok "blobsha",
          createFileErr := none, updateFileErr := none }).calls =
        [FileCall.updateCall "p" opts "blobsha" (base64EncodeToString [])] ∧
      (CreateFile { name := "n", email := "e" }
        { owner := "o", name := "r", branch := "main" } [] "p" "m"
        { getRepoResult := Except.ok "main",
          getContentsResult := ContentsResult.ok "blobsha",
          createFileErr := none, updateFileErr := none }).result = none) :=
  ⟨(createFile_create_vs_update { name := "n", email := "e" }
      { owner := "o", name := "r", branch := "main" } [] "p" "m"
      { getRepoResult := Except.ok "main",
        getContentsResult := ContentsResult.err none "tcp timeout",
        createFileErr := none, updateFileErr := none }
      none "tcp timeout" "unused").1 rfl rfl,
   (createFile_create_vs_update { name := "n", email := "e" }
      { owner := "o", name := "r", branch := "main" } [] "p" "m"
      { getRepoResult := Except.ok "main",
        getContentsResult := ContentsResult.err (some { statusCode := 404 }) "not found",
        createFileErr := none, updateFileErr := none }
      (some { statusCode := 404 }) "not found" "unused").2.1 rfl rfl,
   (createFile_create_vs_update { name := "n", email := "e" }
      { owner := "o", name := "r", branch := "main" } [] "p" "m"
      { getRepoResult := Except.ok "main",
        getContentsResult := ContentsResult.ok "blobsha",
        createFileErr := none, updateFileErr := none }
      none "unused" "blobsha").2.2 rfl⟩

/-- C5 (observed code behavior at the failing input): with no explicit
branch override and a failing default-branch lookup, `CreateFile` logs the
"using master" warning and proceeds — but with the branch left as the empty
string, not the literal "master" that the comment and the warning message
promise: `getDefaultBranch` returns `""` with the error and `CreateFile`
never assigns `"master"` to `branch`. -/
theorem createFile_fallback_branch_is_empty :
    (CreateFile { name := "n", email := "e" }
        { owner := "o", name := "r", branch := "" } [] "p" "m"
        { getRepoResult := Except.error "gitea: 500 internal error",
          getContentsResult := ContentsResult.ok "blobsha",
          createFileErr := none, updateFileErr := none }) =
      { branch := ""
        warnedDefaultBranch := true
        calls := [FileCall.updateCall "p"
          { message := "m", branchName := "",
            author := { name := "n", email := "e" },
            committer := { name := "n", email := "e" } } "blobsha" ""]
        result := none } ∧
    ("" == "master") = false :=
  ⟨rfl, rfl⟩

/-- C2: when a stage's run returns an error, the runner either memorizes it
and proceeds (`continueOnError` declared true and fail-fast off) — the memo
gaining `name: error` and the failing stage's name joining the execution
trace followed by the remaining stages' run — or returns at once the fatal
error wrapping the stage name and cause, the result not depending on the
remaining stages, which never execute. -/
theorem publish_stage_error_policy (failFast : Bool) (memo : List String)
    (st : PubStage) (rest : List PubStage) (e : String)
    (hskip : st.skipped = false) (herr : st.runError = some e) :
    (st.continueOnError = some true ∧ failFast = false →
      runPipeline failFast memo (st :: rest) =
        ((runPipeline failFast (memo ++ [st.name ++ ": " ++ e]) rest).1,
         st.name :: (runPipeline failFast (memo ++ [st.name ++ ": " ++ e]) rest).2)) ∧
    (¬(st.continueOnError = some true ∧ failFast = false) →
      runPipeline failFast memo (st :: rest) =
        (Except.error (st.name ++ ": failed to publish artifacts: " ++ e),
         [st.name])) := by
  constructor
  · intro h
    simp [runPipeline, hskip, herr, h]
  · intro h
    simp [runPipeline, hskip, herr, h]

/-- Witness for C2: a continuable failure under fail-fast off proceeds with
the memo extended; a non-continuable failure aborts with the fatal error
regardless of the stages that follow. -/
theorem publish_stage_error_policy_witness :
    runPipeline false []
      [{ name := "blob", skipped := false, runError := some "bad creds",
         continueOnError := some true }] =
      ((runPipeline false ["blob: bad creds"] []).1,
       "blob" :: (runPipeline false ["blob: bad creds"] []).2) ∧
    runPipeline false []
      [{ name := "release", skipped := false, runError := some "boom",
         continueOnError := none },
       { name := "brew", skipped := false, runError := none,
         continueOnError := none }] =
      (Except.error "release: failed to publish artifacts: boom", ["release"]) :=
  ⟨(publish_stage_error_policy false []
      { name := "blob", skipped := false, runError := some "bad creds",
        continueOnError := some true } [] "bad creds" rfl rfl).1 ⟨rfl, rfl⟩,
   (publish_stage_error_policy false []
      { name := "release", skipped := false, runError := some "boom",
        continueOnError := none }
      [{ name := "brew", skipped := false, runError := none,
         continueOnError := none }] "boom" rfl rfl).2 (by simp)⟩

/-- When the loop of `Pipe.Run` finishes without the fatal early return,
the final memo is the starting memo extended, in execution order, with one
`name: error` entry per non-skipped stage that failed (all of them
necessarily continuable), and every non-skipped stage was invoked. -/
theorem runPipeline_ok_characterization (failFast : Bool)
    (stages : List PubStage) :
    ∀ memo memo', (runPipeline failFast memo stages).1 = Except.ok memo' →
      memo' = memo ++
        (stages.filter (fun st => !st.skipped && st.runError.isSome)).map
          (fun st => st.name ++ ": " ++ st.runError.getD "") ∧
      (runPipeline failFast memo stages).2 =
        (stages.filter (fun st => !st.skipped)).map (fun st => st.name) := by
  induction stages with
  | nil =>
    intro memo memo' h
    simp [runPipeline] at h
    simp [runPipeline, h]
  | cons st rest ih =>
    intro memo memo' h
    by_cases hskip : st.skipped
    · have hstep : runPipeline failFast memo (st :: rest) =
          runPipeline failFast memo rest := by
        simp [runPipeline, hskip]
      rw [hstep] at h ⊢
      have h2 := ih memo memo' h
      simp [List.filter_cons, hskip, h2.1, h2.2]
    · cases herr : st.runError with
      | none =>
        have hstep : runPipeline failFast memo (st :: rest) =
            ((runPipeline failFast memo rest).1,
             st.name :: (runPipeline failFast memo rest).2) := by
          simp [runPipeline, hskip, herr]
        rw [hstep] at h ⊢
        simp only at h
        have h2 := ih memo memo' h
        refine ⟨?_, ?_⟩
        · rw [h2.1]; simp [List.filter_cons, hskip, herr]
        · simp only []
          rw [h2.2]; simp [List.filter_cons, hskip]
      | some e =>
        by_cases hc : st.continueOnError = some true ∧ failFast = false
        · have hstep : runPipeline failFast memo (st :: rest) =
              ((runPipeline failFast (memo ++ [st.name ++ ": " ++ e]) rest).1,
               st.name ::
                 (runPipeline failFast (memo ++ [st.name ++ ": " ++ e]) rest).2) := by
            simp only [runPipeline, herr]
            rw [if_neg hskip, if_pos hc]
          rw [hstep] at h ⊢
          simp only at h
          have h2 := ih (memo ++ [st.name ++ ": " ++ e]) memo' h
          refine ⟨?_, ?_⟩
          · rw [h2.1]; simp [List.filter_cons, hskip, herr]
          · simp only []
            rw [h2.2]; simp [List.filter_cons, hskip]
        · have hstep : runPipeline failFast memo (st :: rest) =
              (Except.error (st.name ++ ": failed to publish artifacts: " ++ e),
               [st.name]) := by
            simp only [runPipeline, herr]
            rw [if_neg hskip, if_neg hc]
          rw [hstep] at h
          simp at h

/-- C3: reaching the end of the stage list without a fatal abort, the run
succeeds exactly when the error memo is empty; a non-empty memo yields the
single combined error joining all memorized stage failures in stage
execution order, and every non-skipped stage was run before it is
reported. -/
theorem publish_pipeline_completion (failFast : Bool) (stages : List PubStage)
    (memo : List String)
    (h : (runPipeline failFast [] stages).1 = Except.ok memo) :
    (PipeRun failFast stages = none ↔ memo = []) ∧
    (memo.isEmpty = false →
      PipeRun failFast stages = some (String.intercalate "\n" memo)) ∧
    memo = (stages.filter (fun st => !st.skipped && st.runError.isSome)).map
      (fun st => st.name ++ ": " ++ st.runError.getD "") ∧
    (runPipeline failFast [] stages).2 =
      (stages.filter (fun st => !st.skipped)).map (fun st => st.name) := by
  have hchar := runPipeline_ok_characterization failFast stages [] memo h
  refine ⟨?_, ?_, by simpa using hchar.1, hchar.2⟩
  · rw [PipeRun, h]
    cases memo with
    | nil => simp [memoError]
    | cons a as => simp [memoError]
  · intro hne
    rw [PipeRun, h]
    cases memo with
    | nil => simp at hne
    | cons a as => simp [memoError]

/-- Witness for C3: a run `[a fails continuable, b skipped, c succeeds]`
with fail-fast off finishes all stages and reports the combined memo
`a: x`; the all-success run reports success. -/
theorem publish_pipeline_completion_witness :
    (PipeRun false
        [{ name := "a", skipped := false, runError := some "x",
           continueOnError := some true },
         { name := "b", skipped := true, runError := some "z",
           continueOnError := none },
         { name := "c", skipped := false, runError := none,
           continueOnError := none }] =
      some (String.intercalate "\n" ["a: x"])) ∧
    (runPipeline false []
        [{ name := "a", skipped := false, runError := some "x",
           continueOnError := some true },
         { name := "b", skipped := true, runError := some "z",
           continueOnError := none },
         { name := "c", skipped := false, runError := none,
           continueOnError := none }]).2 = ["a", "c"] ∧
    PipeRun false
        [{ name := "c", skipped := false, runError := none,
           continueOnError := none }] = none :=
  ⟨(publish_pipeline_completion false
      [{ name := "a", skipped := false, runError := some "x",
         continueOnError := some true },
       { name := "b", skipped := true, runError := some "z",
         continueOnError := none },
       { name := "c", skipped := false, runError := none,
         continueOnError := none }] ["a: x"] rfl).2.1 rfl,
   (publish_pipeline_completion false
      [{ name := "a", skipped := false, runError := some "x",
         continueOnError := some true },
       { name := "b", skipped := true, runError := some "z",
         continueOnError := none },
       { name := "c", skipped := false, runError := none,
         continueOnError := none }] ["a: x"] rfl).2.2.2,
   (publish_pipeline_completion false
      [{ name := "c", skipped := false, runError := none,
         continueOnError := none }] [] rfl).1.mpr rfl⟩

/-- A list whose elements all fail `p`, extended by one element, is scanned
past the prefix by `find?`. -/
theorem find?_append_singleton {α : Type} (p : α → Bool) (l : List α) (a : α)
    (h : ∀ x ∈ l, p x = false) (ha : p a = true) :
    (l ++ [a]).find? p = some a := by
  induction l with
  | nil => simp [List.find?, ha]
  | cons x xs ih =>
    have hx := h x (List.mem_cons_self x xs)
    simp only [List.cons_append, List.find?, hx]
    exact ih (fun y hy => h y (List.mem_cons_of_mem x hy))

/-- Updating by an identifier no list element carries leaves the list
unchanged. -/
theorem map_update_id_eq_self (l : List Release) (id : Nat) (updated : Release)
    (h : ∀ r ∈ l, (r.id == id) = false) :
    l.map (fun r => if r.id == id then updated else r) = l := by
  induction l with
  | nil => rfl
  | cons x xs ih =>
    have hx := h x (List.mem_cons_self x xs)
    simp only [List.map_cons, hx]
    rw [ih (fun y hy => h y (List.mem_cons_of_mem x hy))]
    simp

/-- C1: `CreateRelease` is idempotent per tag. On a server holding no
release with the requested tag (and with its identifier counter fresh),
two successive `CreateRelease` calls with the same tag return the same
identifier: the first lists releases, finds no tag match, and creates; the
second finds the created release by exact string equality on the tag and
updates it in place. After each call exactly one release carries the tag,
and the second call adds no release. -/
theorem createRelease_idempotent_per_tag (s : GiteaServer) (ctx : ReleaseCtx)
    (merge1 merge2 : String → String → String) (t1 b1 t2 b2 : String)
    (hfresh : ∀ r ∈ s.releases, r.id < s.nextID)
    (hnone : getExistingRelease s ctx.currentTag = none) :
    ∃ s1 s2 rid,
      CreateRelease s ctx merge1 t1 b1 = some (s1, rid) ∧
      CreateRelease s1 ctx merge2 t2 b2 = some (s2, rid) ∧
      (s1.releases.filter (fun r => r.tagName == ctx.currentTag)).length = 1 ∧
      (s2.releases.filter (fun r => r.tagName == ctx.currentTag)).length = 1 ∧
      s2.releases.length = s1.releases.length := by
  have hall : ∀ r ∈ s.releases, (r.tagName == ctx.currentTag) = false := by
    intro r hr
    have := List.find?_eq_none.mp hnone r hr
    simpa using this
  set r1 : Release :=
    { id := s.nextID, tagName := ctx.currentTag, target := ctx.commit,
      title := t1, note := b1, isDraft := ctx.draft,
      isPrerelease := ctx.prerelease } with hr1
  set updated : Release :=
    { id := s.nextID, tagName := ctx.currentTag, target := ctx.commit,
      title := t2, note := merge2 b1 b2, isDraft := ctx.draft,
      isPrerelease := ctx.prerelease } with hupd
  refine ⟨{ releases := s.releases ++ [r1], nextID := s.nextID + 1 },
          { releases := s.releases ++ [updated], nextID := s.nextID + 1 },
          toString s.nextID, ?_, ?_, ?_, ?_, ?_⟩
  · simp [CreateRelease, hnone, createRelease, serverCreateRelease, hr1]
  · have hfind1 :
        getExistingRelease
          { releases := s.releases ++ [r1], nextID := s.nextID + 1 }
          ctx.currentTag = some r1 := by
      unfold getExistingRelease listReleases
      exact find?_append_singleton _ _ _ hall (by simp [hr1])
    have hfreshb : ∀ r ∈ s.releases, (r.id == s.nextID) = false := by
      intro r hr
      simpa using Nat.ne_of_lt (hfresh r hr)
    have hedit :
        updateRelease { releases := s.releases ++ [r1], nextID := s.nextID + 1 }
          ctx t2 (merge2 r1.note b2) r1.id =
        some ({ releases := s.releases ++ [updated], nextID := s.nextID + 1 },
              updated) := by
      unfold updateRelease serverEditRelease
      rw [show r1.id = s.nextID from rfl]
      rw [find?_append_singleton _ _ _ hfreshb (by simp)]
      simp only [List.map_append]
      rw [map_update_id_eq_self _ _ _ hfreshb]
      simp [hupd, hr1]
    simp only [CreateRelease, hfind1]
    rw [hedit]
  · have hnilf : s.releases.filter (fun r => r.tagName == ctx.currentTag) = [] :=
      List.filter_eq_nil_iff.mpr (by intro a ha; simpa using hall a ha)
    simp [List.filter_append, hnilf, hr1]
  · have hnilf : s.releases.filter (fun r => r.tagName == ctx.currentTag) = [] :=
      List.filter_eq_nil_iff.mpr (by intro a ha; simpa using hall a ha)
    simp [List.filter_append, hnilf, hupd]
  · simp

/-- Witness for C1: two runs against an initially empty server, tag
`v1.0.0`, with keep-existing and replace merge behaviors. -/
theorem createRelease_idempotent_per_tag_witness :
    ∃ s1 s2 rid,
      CreateRelease { releases := [], nextID := 1 }
        { owner := "o", repoName := "r", currentTag := "v1.0.0",
          commit := "c0ffee", draft := false, prerelease := false }
        (fun a _ => a) "goreleaser v1.0.0" "notes A" = some (s1, rid) ∧
      CreateRelease s1
        { owner := "o", repoName := "r", currentTag := "v1.0.0",
          commit := "c0ffee", draft := false, prerelease := false }
        (fun _ b => b) "goreleaser v1.0.0" "notes B" = some (s2, rid) ∧
      (s1.releases.filter (fun r => r.tagName == "v1.0.0")).length = 1 ∧
      (s2.releases.filter (fun r => r.tagName == "v1.0.0")).length = 1 ∧
      s2.releases.length = s1.releases.length :=
  createRelease_idempotent_per_tag { releases := [], nextID := 1 }
    { owner := "o", repoName := "r", currentTag := "v1.0.0",
      commit := "c0ffee", draft := false, prerelease := false }
    (fun a _ => a) (fun _ b => b) "goreleaser v1.0.0" "notes A"
    "goreleaser v1.0.0" "notes B" (by simp) rfl

end Goreleaser
